import Mathlib

/-!
Verification development for the media-proxy request pipeline
(downloader, decoder, resize processors, encoder, handler).

Each Rust source function is shallowly embedded as an executable Lean
definition.  Network and codec library calls are represented by explicit
oracle records (a response value, a frame list, ...) passed to the
embedded control flow, so that the repository's own logic is modelled
exactly while external effects stay parameters.

Machine-integer remarks: `u32`/`u64` values are modelled as `Nat`; the
claims checked here never involve wrap-around (sizes are compared against
a cap and delays are summed), so no explicit `% 2^w` reduction is needed.
`f64` rounding in the resize geometry of `processors.rs` (and of the
image crate's `resize_dimensions`, which `thumbnail` calls) is modelled
by exact rational arithmetic with round-half-away-from-zero on
non-negative values, the formula the code computes; every quantity there
is a ratio of `u32` products, far inside the range where `f64` evaluates
the expression to the correctly rounded result.
-/

namespace MediaProxy

/-- Abstract raster image: the pipeline's geometry-relevant data.
Pixel content is abstracted to a token (`data`), since the resize and
encode claims concern dimensions, ordering and timing only. -/
structure Img where
  width : Nat
  height : Nat
  data : Nat := 0
deriving DecidableEq, Repr

/-- Round-half-away-from-zero of `num / den` on non-negative values:
the value of Rust's `(num as f64 / den as f64).round() as u32` when the
rational result is computed exactly. -/
def roundDiv (num den : Nat) : Nat := (2 * num + den) / (2 * den)

/-! ## processors.rs -/

/-- Embedding of `shrink_outside` (src/src/handler/processors.rs:3).
`thumbnail_exact(w2, h2)` is a library resample to exactly `w2 x h2`;
it is modelled as keeping the pixel token and setting the dimensions. -/
def shrink_outside (image : Img) (size : Nat) : Img :=
  if size < image.width ∧ size < image.height then
    -- need to shrink; target sizes start at (size, size)
    if image.height < image.width then
      { width := roundDiv (size * image.width) image.height, height := size,
        data := image.data }
    else
      { width := size, height := roundDiv (size * image.height) image.width,
        data := image.data }
  else
    image

/-- Embedding of the image crate's `resize_dimensions(width, height,
nwidth, nheight, fill := false)`, the dimension computation behind
`DynamicImage::thumbnail`.  The ratio comparison `nwidth/width <=
nheight/height` is expressed as the cross multiplication
`nwidth * height <= nheight * width`; each output side is
`max (round (side * ratio)) 1`.  (The `u32::MAX` clamp branch of the
library is omitted: it is unreachable for shrinking calls, where the
ratio is at most 1.) -/
def resizeDimensionsFit (width height nwidth nheight : Nat) : Nat × Nat :=
  if nwidth * height ≤ nheight * width then
    (max (roundDiv (width * nwidth) width) 1,
     max (roundDiv (height * nwidth) width) 1)
  else
    (max (roundDiv (width * nheight) height) 1,
     max (roundDiv (height * nheight) height) 1)

/-- Embedding of `shrink_inside` (src/src/handler/processors.rs:33);
`thumbnail(width, height)` resamples to `resize_dimensions(..., false)`. -/
def shrink_inside (image : Img) (width height : Nat) : Img :=
  if width < image.width ∨ height < image.height then
    let d := resizeDimensionsFit image.width image.height width height
    { width := d.1, height := d.2, data := image.data }
  else
    image


/-! ## downloader.rs

The network is an oracle (`NetEnv`): the parsed host of the request URL
and the response the origin would return to each of the two header
variants the Fetcher can send.  A task abort (an `unwrap()` panic) is
modelled as `none` in the result field. -/

/-- Raw header value bytes as a reqwest `HeaderValue` delivers them:
any opaque bytes are possible, not only ASCII. -/
abbrev HeaderBytes := List Nat

/-- A byte accepted by `HeaderValue::to_str`: visible ASCII or tab. -/
def visibleAscii (bs : HeaderBytes) : Bool :=
  bs.all fun b => (decide (32 ≤ b) && decide (b < 127)) || b == 9

/-- `HeaderValue::to_str()`: fails on any non-visible-ASCII byte.  Every
header read in `download_file` goes through `to_str().unwrap()`. -/
def headerToStr (bs : HeaderBytes) : Option String :=
  if visibleAscii bs then some (String.mk (bs.map Char.ofNat)) else none

/-- Rust `str::parse::<u64>()`: optional leading plus, decimal digits,
value below `2^64`. -/
def parseU64 (s : String) : Option Nat :=
  let t := if s.startsWith "+" then s.drop 1 else s
  if t.length > 0 && t.all Char.isDigit then
    let v := t.foldl (fun a c => a * 10 + (c.toNat - 48)) 0
    if v < 2 ^ 64 then some v else none
  else none

/-- `StatusCode::is_success`: 200..=299. -/
def isSuccessStatus (s : Nat) : Bool := 200 ≤ s && s ≤ 299

/-- `StatusCode::is_client_error`: 400..=499. -/
def isClientErrorStatus (s : Nat) : Bool := 400 ≤ s && s ≤ 499

deriving instance DecidableEq for Except

/-- Model of one origin response: status, the reqwest-level
`content_length()` hint, the raw header values `download_file` inspects,
and the body chunk stream (each item a chunk or a transport error). -/
structure RespModel where
  status : Nat
  contentLength : Option Nat
  contentLengthHeader : Option HeaderBytes
  contentDispositionHeader : Option HeaderBytes
  contentTypeHeader : Option HeaderBytes
  chunks : List (Except Unit (List Nat))
deriving DecidableEq, Repr

/-- Network oracle for one `download_file` call. -/
structure NetEnv where
  urlHost : Option String
  respDirect : Except Unit RespModel
  respRetry : Except Unit RespModel

/-- The two header variants a request can be sent with:
the fixed proxy-identifying user-agent, or the caller's user-agent plus
a Referer header. -/
inductive ReqVariant
  | direct
  | callerRetry
deriving DecidableEq, Repr

/-- `FileDownloadError` (src/src/downloader.rs:11). -/
inductive FileDownloadError
  | Oversize
  | InvalidUrl
  | InvalidStatusCode (status : Nat)
  | RequestError
deriving DecidableEq, Repr

/-- `DownloadedFile` (src/src/downloader.rs:36). -/
structure DownloadedFile where
  bytes : List Nat
  content_type : Option String
  filename : String
deriving DecidableEq, Repr

/-- Result of the request-issuing half of `download_file`
(src/src/downloader.rs:60-124): the requests sent in order, the
quarantine list afterwards, and either an error, or the `resp`
option as it stands at line 126 (`none` means the following
`resp.unwrap()` panics). -/
structure FetchPhase where
  requests : List ReqVariant
  quarantine : List String
  outcome : Except FileDownloadError (Option RespModel)
deriving Repr

/-- The retry block of `download_file` (src/src/downloader.rs:100-124):
only entered with a `host` parameter present; a 2xx retry response
appends the target host to the quarantine list. -/
def retryPhase (troublesome : List String) (env : NetEnv)
    (host : Option String) (targetHost : String)
    (reqs : List ReqVariant) (resp : Option RespModel) : FetchPhase :=
  match host with
  | none => ⟨reqs, troublesome, .ok resp⟩
  | some _ =>
    match env.respRetry with
    | .error _ => ⟨reqs ++ [.callerRetry], troublesome, .error .RequestError⟩
    | .ok r2 =>
      ⟨reqs ++ [.callerRetry],
       if isSuccessStatus r2.status then troublesome ++ [targetHost]
       else troublesome,
       .ok (some r2)⟩

/-- The request-issuing half of `download_file`
(src/src/downloader.rs:60-124). -/
def fetchPhase (troublesome : List String) (env : NetEnv)
    (host : Option String) : FetchPhase :=
  match env.urlHost with
  | none => ⟨[], troublesome, .error .InvalidUrl⟩
  | some targetHost =>
    if troublesome.contains targetHost then
      -- hostname quarantined: not worth a first try, resp stays None
      retryPhase troublesome env host targetHost [] none
    else
      match env.respDirect with
      | .error _ => ⟨[.direct], troublesome, .error .RequestError⟩
      | .ok r =>
        if isClientErrorStatus r.status then
          retryPhase troublesome env host targetHost [.direct] (some r)
        else
          ⟨[.direct], troublesome, .ok (some r)⟩

/-- Splitting a character list at every occurrence of a separator, the
behaviour of Rust `str::split(c)`: always yields at least one piece. -/
def splitChar (c : Char) : List Char → List (List Char)
  | [] => [[]]
  | x :: xs =>
    let r := splitChar c xs
    if x == c then [] :: r
    else
      match r with
      | [] => [[x]]
      | y :: ys => (x :: y) :: ys

/-- `url.split('/').next_back().unwrap_or("unknown")`
(src/src/downloader.rs:154); splitting always yields a piece. -/
def filenameFromUrl (url : String) : String :=
  match (splitChar '/' url.data).getLast? with
  | some s => String.mk s
  | none => "unknown"

/-- `part.trim()`: strip whitespace from both ends. -/
def trimChars (l : List Char) : List Char :=
  ((l.dropWhile Char.isWhitespace).reverse.dropWhile Char.isWhitespace).reverse

/-- `value.trim_matches('"')`: strip double quotes from both ends. -/
def trimQuoteChars (l : List Char) : List Char :=
  ((l.dropWhile fun c => c == '"').reverse.dropWhile fun c => c == '"').reverse

/-- The `filename=` field scan over the parts of a Content-Disposition
value (src/src/downloader.rs:156-163): first match wins. -/
def findFilenameField : List (List Char) → Option String
  | [] => none
  | p :: rest =>
    let q := trimChars p
    if "filename=".data.isPrefixOf q then
      some (String.mk (trimQuoteChars (q.drop 9)))
    else findFilenameField rest

/-- Outcome of the declared-length pre-check
(src/src/downloader.rs:140-150). -/
inductive LenCheck
  | panics
  | oversize
  | proceed
deriving DecidableEq, Repr

/-- The declared-length pre-check (src/src/downloader.rs:140-150):
reqwest's `content_length()` first, then a manual parse of the raw
Content-Length header, whose `to_str().unwrap()` can panic. -/
def checkDeclaredLength (sizeLimit : Nat) (r : RespModel) : LenCheck :=
  match r.contentLength with
  | some size => if sizeLimit < size then .oversize else .proceed
  | none =>
    match r.contentLengthHeader with
    | none => .proceed
    | some hv =>
      match headerToStr hv with
      | none => .panics
      | some s =>
        match parseU64 s with
        | some size => if sizeLimit < size then .oversize else .proceed
        | none => .proceed

/-- Filename selection (src/src/downloader.rs:152-164); `none` when the
Content-Disposition `to_str().unwrap()` panics. -/
def responseFilename (url : String) (r : RespModel) : Option String :=
  match r.contentDispositionHeader with
  | none => some (filenameFromUrl url)
  | some hv =>
    match headerToStr hv with
    | none => none
    | some ds =>
      some ((findFilenameField (splitChar ';' ds.data)).getD
        (filenameFromUrl url))

/-- Content-type extraction (src/src/downloader.rs:168-170); outer
`none` when its `to_str().unwrap()` panics. -/
def responseContentType (r : RespModel) : Option (Option String) :=
  match r.contentTypeHeader with
  | none => some none
  | some hv =>
    match headerToStr hv with
    | none => none
    | some s => some (some s)

/-- The body streaming loop (src/src/downloader.rs:171-178): extend the
buffer chunk by chunk, failing Oversize as soon as the accumulated
length exceeds the cap.  Returns the number of stream items consumed
paired with the result. -/
def streamBody (sizeLimit : Nat) (buf : List Nat) :
    List (Except Unit (List Nat)) → Nat × Except FileDownloadError (List Nat)
  | [] => (0, .ok buf)
  | chunk :: rest =>
    match chunk with
    | .error _ => (1, .error .RequestError)
    | .ok bs =>
      let buf2 := buf ++ bs
      if sizeLimit < buf2.length then (1, .error .Oversize)
      else
        let r := streamBody sizeLimit buf2 rest
        (r.1 + 1, r.2)

/-- The response-processing half of `download_file`
(src/src/downloader.rs:128-186), given the final response: status
check, declared-length check, filename, content type, body streaming.
The outer `Option` is `none` exactly when an `unwrap()` panics; the
`Nat` counts consumed stream items. -/
def processResponse (sizeLimit : Nat) (url : String) (r : RespModel) :
    Option (Except FileDownloadError DownloadedFile) × Nat :=
  if !isSuccessStatus r.status || r.status == 204 then
    (some (.error (.InvalidStatusCode r.status)), 0)
  else
    match checkDeclaredLength sizeLimit r with
    | .panics => (none, 0)
    | .oversize => (some (.error .Oversize), 0)
    | .proceed =>
      match responseFilename url r with
      | none => (none, 0)
      | some fname =>
        match responseContentType r with
        | none => (none, 0)
        | some ct =>
          let sb := streamBody sizeLimit [] r.chunks
          match sb.2 with
          | .error e => (some (.error e), sb.1)
          | .ok bytes => (some (.ok ⟨bytes, ct, fname⟩), sb.1)

/-- Full observable outcome of one `download_file` call.  `result` is
`none` when the task panics (an `unwrap()` on `None` or on a bad header
value). -/
structure DownloadResult where
  result : Option (Except FileDownloadError DownloadedFile)
  requests : List ReqVariant
  quarantineAfter : List String
  chunksConsumed : Nat
deriving Repr

/-- Embedding of `Downloader::download_file` (src/src/downloader.rs:51),
with the network as the `env` oracle.  The caller user-agent only
selects the header variant of the issued requests, which the
`ReqVariant` values record. -/
def download_file (sizeLimit : Nat) (troublesome : List String)
    (env : NetEnv) (url : String) (host : Option String) (ua : String) :
    DownloadResult :=
  match (fetchPhase troublesome env host).outcome with
  | .error e =>
    ⟨some (.error e), (fetchPhase troublesome env host).requests,
     (fetchPhase troublesome env host).quarantine, 0⟩
  | .ok none =>
    -- resp is still None at src/src/downloader.rs:126: resp.unwrap() panics
    ⟨none, (fetchPhase troublesome env host).requests,
     (fetchPhase troublesome env host).quarantine, 0⟩
  | .ok (some r) =>
    ⟨(processResponse sizeLimit url r).1,
     (fetchPhase troublesome env host).requests,
     (fetchPhase troublesome env host).quarantine,
     (processResponse sizeLimit url r).2⟩


/-! ## handler/encode.rs -/

/-- A frame delay as the image crate stores it: the numerator and
denominator of a millisecond ratio (what `numer_denom_ms()` returns). -/
abbrev DelayRat := Nat × Nat

/-- Whole-millisecond conversion of one delay
(src/src/handler/encode.rs:54-55): truncated integer division of the
stored numerator by the stored denominator. -/
def delayMs (d : DelayRat) : Nat := d.1 / d.2

/-- The add-frame loop of `encode_webp`
(src/src/handler/encode.rs:48-57): from running timestamp `t`, each
frame is written at the current timestamp, which then advances by the
frame's whole-millisecond delay.  Returns the per-frame timestamps in
order and the final running timestamp handed to `finalize`. -/
def webpTimestamps (t : Nat) : List DelayRat → List Nat × Nat
  | [] => ([], t)
  | d :: rest =>
    let r := webpTimestamps (t + delayMs d) rest
    (t :: r.1, r.2)

/-- Trace of one `encode_webp` run (src/src/handler/encode.rs:24-60):
canvas dimensions taken from the first image, the timestamp each frame
is added at, and the total duration passed to `finalize`.  `none` when
the image list is empty and the `images[0]` indexing panics.  Frames
enter in list order with their stored delays (`images_to_frames` keeps
both). -/
def encode_webp (images : List (Img × DelayRat)) :
    Option ((Nat × Nat) × List Nat × Nat) :=
  match images with
  | [] => none
  | i0 :: _ =>
    let r := webpTimestamps 0 (images.map fun i => i.2)
    some ((i0.1.width, i0.1.height), r.1, r.2)

/-! ## handler/decode.rs -/

/-- The format classes `decode_image_format` dispatches on. -/
inductive GuessFormat
  | gif
  | png
  | webp
  | other
deriving DecidableEq, Repr

/-- Codec-library oracle for one `decode_image` call: the guessed
format and the outcome of each library call a branch can make.
Animation decoding yields (image, delay) pairs. -/
structure DecodeEnv where
  guessed : Option GuessFormat
  oriOk : Bool
  applyOri : Img → Img
  gifNewOk : Bool
  gifFrames : Except Unit (List (Img × DelayRat))
  pngNewOk : Bool
  pngIsApng : Except Unit Bool
  pngApngOk : Bool
  pngFrames : Except Unit (List (Img × DelayRat))
  pngStatic : Except Unit Img
  webpNewOk : Bool
  webpHasAnimation : Bool
  webpFrames : Except Unit (List (Img × DelayRat))
  webpStatic : Except Unit Img
  otherIntoDecoderOk : Bool
  otherStatic : Except Unit Img

/-- `static_image` (src/src/handler/decode.rs:12-20): exactly one
frame with a zero delay stored as `(0, 1)`, orientation applied when
available. -/
def static_image (oriOk : Bool) (applyOri : Img → Img) (img : Img) :
    List (Img × DelayRat) :=
  [(if oriOk then applyOri img else img, (0, 1))]

/-- `frames_to_images` (src/src/handler/decode.rs:22-36): keep each
frame's delay, apply orientation when available — one output per input
frame. -/
def frames_to_images (oriOk : Bool) (applyOri : Img → Img)
    (frames : List (Img × DelayRat)) : List (Img × DelayRat) :=
  frames.map fun f => (if oriOk then applyOri f.1 else f.1, f.2)

/-- `decode_image_format` (src/src/handler/decode.rs:39-82). -/
def decode_image_format (e : DecodeEnv) (format : GuessFormat) :
    Except Unit (List (Img × DelayRat)) :=
  match format with
  | .gif =>
    if e.gifNewOk then
      e.gifFrames.map fun f => frames_to_images e.oriOk e.applyOri f
    else .error ()
  | .png =>
    if e.pngNewOk then
      match e.pngIsApng with
      | .error _ => .error ()
      | .ok true =>
        if e.pngApngOk then
          e.pngFrames.map fun f => frames_to_images e.oriOk e.applyOri f
        else .error ()
      | .ok false =>
        match e.pngStatic with
        | .error _ => .error ()
        | .ok img => .ok (static_image e.oriOk e.applyOri img)
    else .error ()
  | .webp =>
    if e.webpNewOk then
      if e.webpHasAnimation then
        e.webpFrames.map fun f => frames_to_images e.oriOk e.applyOri f
      else
        match e.webpStatic with
        | .error _ => .error ()
        | .ok img => .ok (static_image e.oriOk e.applyOri img)
    else .error ()
  | .other =>
    if e.otherIntoDecoderOk then
      match e.otherStatic with
      | .error _ => .error ()
      | .ok img => .ok (static_image e.oriOk e.applyOri img)
    else .error ()

/-- `DecodeImageError` (src/src/handler/decode.rs:84). -/
inductive DecodeImageError
  | Unsupported
  | ImageError
deriving DecidableEq, Repr

/-- `decode_image` (src/src/handler/decode.rs:89-126), with the `anim`
feature enabled, so an animated decode result is returned directly. -/
def decode_image (e : DecodeEnv) :
    Except DecodeImageError (List (Img × DelayRat)) :=
  match e.guessed with
  | none => .error .Unsupported
  | some format =>
    match decode_image_format e format with
    | .error _ => .error .ImageError
    | .ok l => .ok l

/-! ## handler.rs -/

/-- HTTP response body as the handler builds it. -/
inductive BodyModel
  | empty
  | text (s : String)
  | raw (bs : List Nat)
deriving DecidableEq, Repr

/-- The observable parts of a hyper response the handler constructs. -/
structure HttpResponse where
  status : Nat := 200
  body : BodyModel := .empty
  contentType : Option String := none
  location : Option String := none
deriving DecidableEq, Repr

/-- `response_raw` (src/src/handler/utils.rs:23-33): status 200 with
the raw downloaded bytes, Content-Type set when declared. -/
def response_raw (bytes : List Nat) (ct : Option String) : HttpResponse :=
  { status := 200, body := .raw bytes, contentType := ct }

/-- The Fetcher-failure mapping inside `download_image`
(src/src/handler.rs:138-158): Oversize becomes a 302 redirect to the
origin URL, an invalid status is inherited verbatim with an empty body,
a transport error becomes 500.  The handler snapshot under src matches
only the three error variants of its own downloader; the `InvalidUrl`
arm is modelled from the spec: the spec maps `InvalidUrl` to
`StatusOnly(BadRequest)` and the corresponding handler version is not
under src. -/
def mapDownloadError (url : String) : FileDownloadError → HttpResponse
  | .Oversize => { status := 302, location := some url }
  | .InvalidStatusCode s => { status := s }
  | .RequestError => { status := 500 }
  | .InvalidUrl => { status := 400 }

/-- Substring test used by the loop-prevention gate:
`ua.to_lowercase().contains("misskey/")`. -/
def strContains (s pat : String) : Bool := decide (pat.data <:+: s.data)

/-- `str::to_lowercase` on the ASCII range the gate cares about. -/
def toLowerStr (s : String) : String := String.mk (s.data.map Char.toLower)

/-- `ct.starts_with("image/")` as a character-list test. -/
def startsWithImage (ct : String) : Bool := "image/".data.isPrefixOf ct.data

/-- `download_image` (src/src/handler.rs:106-182): parameter checks,
loop-prevention gate, fetch, mime gate, decode.  The downloader and
decoder results are oracles consumed where the source awaits them; an
`Except.error` carries the early HTTP response. -/
def download_image (url : Option String) (host : Option String)
    (ua : Option String)
    (dl : Except FileDownloadError (List Nat × Option String))
    (dec : Except DecodeImageError (List Img)) :
    Except HttpResponse (List Img) :=
  match url with
  | none => .error { status := 400 }
  | some u =>
    match ua with
    | none => .error { status := 400, body := .text "User-Agent is required" }
    | some uaStr =>
      if strContains (toLowerStr uaStr) "misskey/" then
        .error { status := 403,
                 body := .text "Refusing to proxy a request from another proxy" }
      else
        match dl with
        | .error e => .error (mapDownloadError u e)
        | .ok (bytes, ct) =>
          if ct.any fun c => ! startsWithImage c then
            .error (response_raw bytes ct)
          else
            match dec with
            | .ok images => .ok images
            | .error _ => .error (response_raw bytes ct)

/-! Concrete fixtures used by the theorems. -/

/-- A plain 200 response: no declared headers, empty body stream. -/
def plain200 : RespModel :=
  { status := 200, contentLength := none, contentLengthHeader := none,
    contentDispositionHeader := none, contentTypeHeader := none,
    chunks := [] }

/-- A 403 response (hotlink protection), no headers, empty body. -/
def plain403 : RespModel := { plain200 with status := 403 }

/-- Oracle for a quarantined host: both request variants would get a
plain 200. -/
def envQuarantined : NetEnv :=
  { urlHost := some "img.example",
    respDirect := .ok plain200,
    respRetry := .ok plain200 }

/-- Oracle for the quarantine-insertion scenario: the direct request is
refused with 403, the caller-headers retry succeeds with a one-chunk
body. -/
def envHotlink : NetEnv :=
  { urlHost := some "img.example",
    respDirect := .ok plain403,
    respRetry := .ok { plain200 with chunks := [.ok [7, 7, 7]] } }

/-- A 200 response whose Content-Type header value contains byte 200, a
legal opaque header byte that `to_str()` rejects. -/
def respOpaqueCT : RespModel :=
  { plain200 with contentTypeHeader := some [200] }

/-- Oracle delivering `respOpaqueCT` to the direct request. -/
def envOpaqueCT : NetEnv :=
  { urlHost := some "origin.example",
    respDirect := .ok respOpaqueCT,
    respRetry := .ok respOpaqueCT }

/-- A 200 response whose reqwest-level declared length is 101 bytes. -/
def respBigCL : RespModel := { plain200 with contentLength := some 101 }

/-- Oracle delivering `respBigCL` to the direct request. -/
def envBigCL : NetEnv :=
  { urlHost := some "o.example",
    respDirect := .ok respBigCL,
    respRetry := .ok respBigCL }

/-- A 200 response with no declared length and two 3-byte chunks. -/
def respChunky : RespModel :=
  { plain200 with chunks := [.ok [1, 2, 3], .ok [4, 5, 6]] }

/-- Oracle delivering `respChunky` to the direct request. -/
def envChunky : NetEnv :=
  { urlHost := some "o.example",
    respDirect := .ok respChunky,
    respRetry := .ok respChunky }

/-- A plain 404 response. -/
def resp404 : RespModel := { plain200 with status := 404 }

/-- Oracle delivering `resp404` to the direct request. -/
def env404 : NetEnv :=
  { urlHost := some "o.example",
    respDirect := .ok resp404,
    respRetry := .ok resp404 }

/-- A 200 response declaring Content-Type "image/png" in plain ASCII. -/
def respNiceCT : RespModel :=
  { plain200 with
    contentTypeHeader := some [105, 109, 97, 103, 101, 47, 112, 110, 103] }

/-- Oracle delivering `respNiceCT` to the direct request. -/
def envNiceCT : NetEnv :=
  { urlHost := some "o.example",
    respDirect := .ok respNiceCT,
    respRetry := .ok respNiceCT }

/-- Decode oracle: an animated GIF whose frame list the gif codec
reports as empty (a syntactically valid GIF may contain zero image
descriptors), every other library call succeeding. -/
def envZeroFrameGif : DecodeEnv :=
  { guessed := some .gif
    oriOk := false
    applyOri := id
    gifNewOk := true
    gifFrames := .ok []
    pngNewOk := true
    pngIsApng := .ok false
    pngApngOk := true
    pngFrames := .ok []
    pngStatic := .ok { width := 1, height := 1 }
    webpNewOk := true
    webpHasAnimation := false
    webpFrames := .ok []
    webpStatic := .ok { width := 1, height := 1 }
    otherIntoDecoderOk := true
    otherStatic := .ok { width := 1, height := 1 } }

/-! Arithmetic helpers for the resize geometry. -/

/-- Rounding an exact integer ratio returns the integer. -/
theorem roundDiv_mul_self (a w : Nat) (hw : 0 < w) :
    roundDiv (w * a) w = a := by
  unfold roundDiv
  have h1 : 2 * (w * a) + w = w * (2 * a + 1) := by ring
  rw [h1, Nat.mul_comm 2 w, Nat.mul_div_mul_left _ _ hw]
  omega

/-- The rounded scaled side keeps within the box (cross-multiplied bound). -/
theorem roundDiv_le_of_cross (h bw w bh : Nat) (hw : 0 < w)
    (hcross : bw * h ≤ bh * w) : roundDiv (h * bw) w ≤ bh := by
  unfold roundDiv
  have h2 : (2 * (h * bw) + w) / (2 * w) < bh + 1 :=
    (Nat.div_lt_iff_lt_mul (by omega : 0 < 2 * w)).2 (by nlinarith)
  omega

/-- The rounded expanded side is at least the target when the source
side is at least as long as the reference side. -/
theorem le_roundDiv_of_le (s w h : Nat) (hh : 0 < h) (hwh : h ≤ w) :
    s ≤ roundDiv (s * w) h := by
  unfold roundDiv
  exact (Nat.le_div_iff_mul_le (by omega : 0 < 2 * h)).2 (by nlinarith)

/-- C6: cover-fill (`shrink_outside`) with target side `s` changes the
image only when both dimensions strictly exceed `s`; then the shorter
output side is `s` and the longer one is
`round(s * longerOriginal / shorterOriginal)`; otherwise the image is
unchanged; in particular 24x12 at target 10 gives 20x10 and 18x9 at
target 10 is unchanged. -/
theorem shrink_outside_cover_fill (img : Img) (s : Nat) :
    (¬ (s < img.width ∧ s < img.height) → shrink_outside img s = img) ∧
    (s < img.width ∧ s < img.height →
      min (shrink_outside img s).width (shrink_outside img s).height = s ∧
      max (shrink_outside img s).width (shrink_outside img s).height
        = roundDiv (s * max img.width img.height) (min img.width img.height) ∧
      (shrink_outside img s).data = img.data) ∧
    shrink_outside { width := 24, height := 12 } 10
      = { width := 20, height := 10 } ∧
    shrink_outside { width := 18, height := 9 } 10
      = { width := 18, height := 9 } := by
  refine ⟨fun hne => by simp only [shrink_outside, if_neg hne], ?_,
    by decide, by decide⟩
  rintro ⟨hw, hh⟩
  unfold shrink_outside
  rw [if_pos ⟨hw, hh⟩]
  by_cases hlt : img.height < img.width
  · rw [if_pos hlt]
    have hle : s ≤ roundDiv (s * img.width) img.height :=
      le_roundDiv_of_le s img.width img.height (by omega) (by omega)
    refine ⟨min_eq_right hle, ?_, rfl⟩
    rw [max_eq_left hle, max_eq_left (Nat.le_of_lt hlt),
      min_eq_right (Nat.le_of_lt hlt)]
  · rw [if_neg hlt]
    push_neg at hlt
    have hle : s ≤ roundDiv (s * img.height) img.width :=
      le_roundDiv_of_le s img.height img.width (by omega) hlt
    refine ⟨min_eq_left hle, ?_, rfl⟩
    rw [max_eq_right hle, max_eq_right hlt, min_eq_left hlt]

/-- Witness for the cover-fill theorem at concrete inputs. -/
theorem shrink_outside_cover_fill_points :
    shrink_outside { width := 24, height := 12 } 10
      = { width := 20, height := 10 } ∧
    min (shrink_outside { width := 30, height := 20 } 10).width
      (shrink_outside { width := 30, height := 20 } 10).height = 10 :=
  ⟨(shrink_outside_cover_fill { width := 24, height := 12 } 10).2.2.1,
   ((shrink_outside_cover_fill { width := 30, height := 20 } 10).2.1
      (by decide)).1⟩

/-- C7: fit-within-box (`shrink_inside`) returns the image unchanged when
it already fits the box; otherwise both output dimensions fit within the
box and the relatively larger dimension is clamped to the box edge; in
particular 18x18 in a 20x20 box is unchanged and 18x9 in a 10x10 box
gives 10x5. -/
theorem shrink_inside_fit_within (img : Img) (bw bh : Nat)
    (hw : 0 < img.width) (hh : 0 < img.height)
    (hbw : 0 < bw) (hbh : 0 < bh) :
    (img.width ≤ bw ∧ img.height ≤ bh → shrink_inside img bw bh = img) ∧
    (¬ (img.width ≤ bw ∧ img.height ≤ bh) →
      (shrink_inside img bw bh).width ≤ bw ∧
      (shrink_inside img bw bh).height ≤ bh ∧
      (if bw * img.height ≤ bh * img.width
        then (shrink_inside img bw bh).width = bw
        else (shrink_inside img bw bh).height = bh)) ∧
    shrink_inside { width := 18, height := 18 } 20 20
      = { width := 18, height := 18 } ∧
    shrink_inside { width := 18, height := 9 } 10 10
      = { width := 10, height := 5 } := by
  refine ⟨?_, ?_, by decide, by decide⟩
  · intro hfit
    simp only [shrink_inside, if_neg (by omega :
      ¬ (bw < img.width ∨ bh < img.height))]
  · intro hno
    unfold shrink_inside
    rw [if_pos (by omega : bw < img.width ∨ bh < img.height)]
    unfold resizeDimensionsFit
    by_cases hcross : bw * img.height ≤ bh * img.width
    · rw [if_pos hcross]
      have hwid : roundDiv (img.width * bw) img.width = bw :=
        roundDiv_mul_self bw img.width hw
      have hhei : roundDiv (img.height * bw) img.width ≤ bh :=
        roundDiv_le_of_cross img.height bw img.width bh hw hcross
      refine ⟨by simp [hwid]; omega, by simp; omega, ?_⟩
      rw [if_pos hcross]; simp [hwid]; omega
    · rw [if_neg hcross]
      have hhei : roundDiv (img.height * bh) img.height = bh :=
        roundDiv_mul_self bh img.height hh
      have hwid : roundDiv (img.width * bh) img.height ≤ bw :=
        roundDiv_le_of_cross img.width bh img.height bw hh (by omega)
      refine ⟨by simp; omega, by simp [hhei]; omega, ?_⟩
      rw [if_neg hcross]; simp [hhei]; omega
/-- Witness for the fit-within-box theorem at concrete inputs. -/
theorem shrink_inside_fit_within_points :
    shrink_inside { width := 18, height := 9 } 10 10
      = { width := 10, height := 5 } ∧
    (shrink_inside { width := 5, height := 30 } 10 10).height = 10 := by
  refine ⟨(shrink_inside_fit_within { width := 18, height := 9 } 10 10
    (by decide) (by decide) (by decide) (by decide)).2.2.2, ?_⟩
  have h := ((shrink_inside_fit_within { width := 5, height := 30 } 10 10
    (by decide) (by decide) (by decide) (by decide)).2.1 (by decide)).2.2
  rw [if_neg (by decide)] at h
  exact h

/-- C1 (code defect): for a hostname already on the quarantine list the
direct request is indeed skipped, but when the call carries no referer
host the retry block is skipped too (src/src/downloader.rs:101 requires
`host`): no request at all is issued and `resp` is still `None` at the
`resp.unwrap()` of src/src/downloader.rs:126, so the task panics
instead of sending the retry variant.  With a referer host present the
claim's behaviour holds: exactly the caller-UA+Referer request is
issued and its response is processed normally. -/
theorem download_file_quarantined_no_host_panics :
    (download_file 100 ["img.example"] envQuarantined
      "http://img.example/a.png" none "ua").result = none ∧
    (download_file 100 ["img.example"] envQuarantined
      "http://img.example/a.png" none "ua").requests = [] ∧
    (download_file 100 ["img.example"] envQuarantined
      "http://img.example/a.png" (some "caller.example") "ua").requests
      = [ReqVariant.callerRetry] ∧
    (download_file 100 ["img.example"] envQuarantined
      "http://img.example/a.png" (some "caller.example") "ua").result
      = some (.ok { bytes := [], content_type := none,
                    filename := "a.png" }) :=
  ⟨rfl, rfl, rfl, rfl⟩

/-- C3: on a hostname not yet quarantined whose direct response is a
4xx and with a referer host supplied, a second request with the caller
headers is issued; when that retry is a 2xx, the hostname is appended
to the quarantine list exactly once, so it is present afterwards. -/
theorem download_file_quarantine_insert (sizeLimit : Nat)
    (troublesome : List String) (env : NetEnv) (url : String)
    (h hostName ua : String) (r1 r2 : RespModel)
    (hhost : env.urlHost = some hostName)
    (hnew : troublesome.contains hostName = false)
    (hdirect : env.respDirect = .ok r1)
    (h4xx : isClientErrorStatus r1.status = true)
    (hretry : env.respRetry = .ok r2)
    (h2xx : isSuccessStatus r2.status = true) :
    (download_file sizeLimit troublesome env url (some h) ua).requests
      = [ReqVariant.direct, ReqVariant.callerRetry] ∧
    (download_file sizeLimit troublesome env url (some h) ua).quarantineAfter
      = troublesome ++ [hostName] ∧
    hostName ∈
      (download_file sizeLimit troublesome env url (some h) ua).quarantineAfter := by
  have hfp : fetchPhase troublesome env (some h) =
      ⟨[.direct, .callerRetry], troublesome ++ [hostName], .ok (some r2)⟩ := by
    have hnotin : hostName ∉ troublesome := by
      simpa using hnew
    unfold fetchPhase retryPhase
    simp [hhost, hnotin, hdirect, h4xx, hretry, h2xx]
  have hreq : (download_file sizeLimit troublesome env url (some h) ua).requests
      = [ReqVariant.direct, ReqVariant.callerRetry] := by
    simp [download_file, hfp]
  have hq : (download_file sizeLimit troublesome env url
      (some h) ua).quarantineAfter = troublesome ++ [hostName] := by
    simp [download_file, hfp]
  exact ⟨hreq, hq, hq ▸ List.mem_append_right _ (List.mem_singleton_self _)⟩

/-- Witness for the quarantine-insertion theorem at a concrete oracle:
the direct request meets a 403, the retry succeeds, and the hostname
lands on the quarantine list. -/
theorem download_file_quarantine_insert_point :
    (download_file 100 [] envHotlink "http://img.example/a.png"
      (some "caller.example") "ua").requests
      = [ReqVariant.direct, ReqVariant.callerRetry] ∧
    (download_file 100 [] envHotlink "http://img.example/a.png"
      (some "caller.example") "ua").quarantineAfter = [] ++ ["img.example"] :=
  ⟨(download_file_quarantine_insert 100 [] envHotlink
      "http://img.example/a.png" "caller.example" "img.example" "ua"
      plain403 { plain200 with chunks := [.ok [7, 7, 7]] }
      rfl rfl rfl rfl rfl rfl).1,
   (download_file_quarantine_insert 100 [] envHotlink
      "http://img.example/a.png" "caller.example" "img.example" "ua"
      plain403 { plain200 with chunks := [.ok [7, 7, 7]] }
      rfl rfl rfl rfl rfl rfl).2.1⟩

/-- A successful streaming run never returns more than the cap. -/
theorem streamBody_ok_length (sizeLimit : Nat)
    (chunks : List (Except Unit (List Nat))) :
    ∀ buf bytes, buf.length ≤ sizeLimit →
      (streamBody sizeLimit buf chunks).2 = .ok bytes →
      bytes.length ≤ sizeLimit := by
  induction chunks with
  | nil =>
    intro buf bytes h he
    simp [streamBody] at he
    exact he ▸ h
  | cons c rest ih =>
    intro buf bytes h he
    cases c with
    | error u => simp [streamBody] at he
    | ok bs =>
      by_cases hx : sizeLimit < buf.length + bs.length
      · simp [streamBody, hx] at he
      · simp [streamBody, hx] at he
        exact ih (buf ++ bs) bytes (by simp; omega) he

/-- The streaming loop stops with Oversize exactly at the first chunk
that pushes the accumulated length over the cap. -/
theorem streamBody_oversize_at (sizeLimit : Nat) :
    ∀ (bss : List (List Nat)) (buf : List Nat) (k : Nat),
      buf.length + ((bss.take k).map List.length).sum ≤ sizeLimit →
      sizeLimit < buf.length + ((bss.take (k + 1)).map List.length).sum →
      streamBody sizeLimit buf (bss.map Except.ok)
        = (k + 1, .error .Oversize) := by
  intro bss
  induction bss with
  | nil =>
    intro buf k h1 h2
    simp at h1 h2
    omega
  | cons bs rest ih =>
    intro buf k h1 h2
    cases k with
    | zero =>
      have hcond : sizeLimit < buf.length + bs.length := by
        simp at h2
        omega
      simp [streamBody, hcond]
    | succ j =>
      rw [List.take_succ_cons, List.map_cons, List.sum_cons] at h1 h2
      have hc : ¬ sizeLimit < buf.length + bs.length := by omega
      have hr := ih (buf ++ bs) j
        (by rw [List.length_append]; omega)
        (by rw [List.length_append]; omega)
      simp [streamBody, hc, hr]

/-- A successful processed response never carries more than the cap. -/
theorem processResponse_ok_length (sizeLimit : Nat) (url : String)
    (r : RespModel) (f : DownloadedFile)
    (hf : (processResponse sizeLimit url r).1 = some (.ok f)) :
    f.bytes.length ≤ sizeLimit := by
  simp only [processResponse] at hf
  split at hf
  · simp at hf
  · split at hf
    · simp at hf
    · simp at hf
    · split at hf
      · simp at hf
      · split at hf
        · simp at hf
        · split at hf
          · simp at hf
          · next bytes heq =>
            simp at hf
            have hlen := streamBody_ok_length sizeLimit r.chunks [] bytes
              (by simp) heq
            subst hf
            simpa using hlen

/-- A visible-ASCII header value converts to a string. -/
theorem headerToStr_of_visible (bs : HeaderBytes)
    (h : visibleAscii bs = true) :
    headerToStr bs = some (String.mk (bs.map Char.ofNat)) := by
  simp [headerToStr, h]

/-- Any successful download_file result carries at most cap bytes. -/
theorem download_file_ok_length (sizeLimit : Nat) (troublesome : List String)
    (env : NetEnv) (url : String) (host : Option String) (ua : String)
    (f : DownloadedFile)
    (hf : (download_file sizeLimit troublesome env url host ua).result
      = some (.ok f)) :
    f.bytes.length ≤ sizeLimit := by
  unfold download_file at hf
  split at hf
  · simp at hf
  · simp at hf
  · exact processResponse_ok_length sizeLimit url _ f hf

/-- C2: size-cap behaviour of download_file given the final origin
response: a declared length over the cap — through either length
source — fails Oversize with no stream item consumed; any successful
result carries at most cap bytes; and when the pre-checks pass, the
streamed body is aborted with Oversize exactly at the first chunk that
pushes the accumulated length over the cap. -/
theorem download_file_size_cap (sizeLimit : Nat) (troublesome : List String)
    (env : NetEnv) (url : String) (host : Option String) (ua : String)
    (r : RespModel)
    (hfinal : (fetchPhase troublesome env host).outcome = .ok (some r))
    (hok : isSuccessStatus r.status = true)
    (h204 : r.status ≠ 204) :
    (∀ n, r.contentLength = some n → sizeLimit < n →
      (download_file sizeLimit troublesome env url host ua).result
        = some (.error .Oversize) ∧
      (download_file sizeLimit troublesome env url host ua).chunksConsumed
        = 0) ∧
    (∀ hv s n, r.contentLength = none → r.contentLengthHeader = some hv →
      headerToStr hv = some s → parseU64 s = some n → sizeLimit < n →
      (download_file sizeLimit troublesome env url host ua).result
        = some (.error .Oversize) ∧
      (download_file sizeLimit troublesome env url host ua).chunksConsumed
        = 0) ∧
    (∀ f, (download_file sizeLimit troublesome env url host ua).result
        = some (.ok f) → f.bytes.length ≤ sizeLimit) ∧
    (∀ (bss : List (List Nat)) (k : Nat),
      r.chunks = bss.map Except.ok →
      checkDeclaredLength sizeLimit r = .proceed →
      responseFilename url r ≠ none →
      responseContentType r ≠ none →
      ((bss.take k).map List.length).sum ≤ sizeLimit →
      sizeLimit < ((bss.take (k + 1)).map List.length).sum →
      (download_file sizeLimit troublesome env url host ua).result
        = some (.error .Oversize) ∧
      (download_file sizeLimit troublesome env url host ua).chunksConsumed
        = k + 1) := by
  have hres : (download_file sizeLimit troublesome env url host ua).result
      = (processResponse sizeLimit url r).1 := by
    simp [download_file, hfinal]
  have hcons :
      (download_file sizeLimit troublesome env url host ua).chunksConsumed
      = (processResponse sizeLimit url r).2 := by
    simp [download_file, hfinal]
  have hstatus : (!isSuccessStatus r.status || r.status == 204) = false := by
    rw [hok]
    simp [h204]
  refine ⟨?_, ?_, ?_, ?_⟩
  · intro n hn hlt
    have hchk : checkDeclaredLength sizeLimit r = .oversize := by
      simp [checkDeclaredLength, hn, hlt]
    exact ⟨by rw [hres]; simp [processResponse, hstatus, hchk],
           by rw [hcons]; simp [processResponse, hstatus, hchk]⟩
  · intro hv s n hn0 hhv hhs hpn hlt
    have hchk : checkDeclaredLength sizeLimit r = .oversize := by
      simp [checkDeclaredLength, hn0, hhv, hhs, hpn, hlt]
    exact ⟨by rw [hres]; simp [processResponse, hstatus, hchk],
           by rw [hcons]; simp [processResponse, hstatus, hchk]⟩
  · intro f hf
    exact download_file_ok_length sizeLimit troublesome env url host ua f hf
  · intro bss k hchunks hchk hfn hct hle hgt
    obtain ⟨fname, hfn2⟩ := Option.ne_none_iff_exists'.mp hfn
    obtain ⟨ct, hct2⟩ := Option.ne_none_iff_exists'.mp hct
    have hsb : streamBody sizeLimit [] r.chunks
        = (k + 1, .error .Oversize) := by
      rw [hchunks]
      exact streamBody_oversize_at sizeLimit bss [] k
        (by simpa using hle) (by simpa using hgt)
    exact ⟨by rw [hres]; simp [processResponse, hstatus, hchk, hfn2, hct2, hsb],
           by rw [hcons]; simp [processResponse, hstatus, hchk, hfn2, hct2, hsb]⟩

/-- Witness for the size-cap theorem: a declared length of 101 against
cap 100 fails Oversize with nothing consumed, and with cap 4 a body of
chunks of 3+3 bytes is aborted at the second chunk. -/
theorem download_file_size_cap_points :
    ((download_file 100 [] envBigCL "http://o.example/f" none "ua").result
        = some (.error .Oversize) ∧
     (download_file 100 [] envBigCL "http://o.example/f" none
        "ua").chunksConsumed = 0) ∧
    ((download_file 4 [] envChunky "http://o.example/f" none "ua").result
        = some (.error .Oversize) ∧
     (download_file 4 [] envChunky "http://o.example/f" none
        "ua").chunksConsumed = 1 + 1) :=
  ⟨(download_file_size_cap 100 [] envBigCL "http://o.example/f" none "ua"
      respBigCL rfl rfl (by decide)).1 101 rfl (by decide),
   (download_file_size_cap 4 [] envChunky "http://o.example/f" none "ua"
      respChunky rfl rfl (by decide)).2.2.2 [[1, 2, 3], [4, 5, 6]] 1 rfl rfl
      (by decide) (by decide) (by decide) (by decide)⟩

/-- C8: whenever the final origin response status is not 2xx or is
exactly 204, download_file fails with InvalidStatusCode carrying that
status, and the handler maps this failure to a response with exactly
that status code and an empty body. -/
theorem download_file_invalid_status (sizeLimit : Nat)
    (troublesome : List String) (env : NetEnv) (url : String)
    (host : Option String) (ua : String) (r : RespModel)
    (hfinal : (fetchPhase troublesome env host).outcome = .ok (some r))
    (hbad : isSuccessStatus r.status = false ∨ r.status = 204) :
    (download_file sizeLimit troublesome env url host ua).result
      = some (.error (.InvalidStatusCode r.status)) ∧
    mapDownloadError url (.InvalidStatusCode r.status)
      = { status := r.status, body := .empty, contentType := none,
          location := none } := by
  have hres : (download_file sizeLimit troublesome env url host ua).result
      = (processResponse sizeLimit url r).1 := by
    simp [download_file, hfinal]
  have hcond : (!isSuccessStatus r.status || r.status == 204) = true := by
    rcases hbad with hb | hb
    · simp [hb]
    · simp [hb]
  exact ⟨by rw [hres]; simp [processResponse, hcond], rfl⟩

/-- Witness for the invalid-status theorem: a 404 origin reply becomes
InvalidStatusCode 404 and the handler response carries status 404. -/
theorem download_file_invalid_status_point :
    (download_file 100 [] env404 "http://o.example/f" none "ua").result
      = some (.error (.InvalidStatusCode 404)) ∧
    mapDownloadError "http://o.example/f" (.InvalidStatusCode 404)
      = { status := 404, body := .empty, contentType := none,
          location := none } :=
  download_file_invalid_status 100 [] env404 "http://o.example/f" none "ua"
    resp404 rfl (Or.inl rfl)

/-- C10 counterexample: a Content-Type header value consisting of the
single byte 200 — a legal opaque header byte — makes the
`to_str().unwrap()` at src/src/downloader.rs:170 panic, so the call
aborts the task instead of returning a result. -/
theorem download_file_header_byte_panics :
    (download_file 100 [] envOpaqueCT "http://origin.example/f" none
      "ua").result = none :=
  rfl

/-- C10 amended: header inspection returns normally provided every byte
of the present Content-Length, Content-Disposition and Content-Type
values is visible ASCII or tab; a single opaque byte in any of them
aborts the task via an unwrap panic (see the counterexample). -/
theorem download_file_header_total (sizeLimit : Nat)
    (troublesome : List String) (env : NetEnv) (url : String)
    (host : Option String) (ua : String) (r : RespModel)
    (hfinal : (fetchPhase troublesome env host).outcome = .ok (some r))
    (hcl : ∀ hv, r.contentLengthHeader = some hv → visibleAscii hv = true)
    (hcd : ∀ hv, r.contentDispositionHeader = some hv →
      visibleAscii hv = true)
    (hct : ∀ hv, r.contentTypeHeader = some hv → visibleAscii hv = true) :
    (download_file sizeLimit troublesome env url host ua).result
      ≠ none := by
  have hres : (download_file sizeLimit troublesome env url host ua).result
      = (processResponse sizeLimit url r).1 := by
    simp [download_file, hfinal]
  have hA : checkDeclaredLength sizeLimit r ≠ .panics := by
    unfold checkDeclaredLength
    cases hx : r.contentLength with
    | some n => by_cases h : sizeLimit < n <;> simp [h]
    | none =>
      cases hy : r.contentLengthHeader with
      | none => simp
      | some hv =>
        simp only [headerToStr_of_visible hv (hcl hv hy)]
        cases hz : parseU64 (String.mk (hv.map Char.ofNat)) with
        | none => simp
        | some n => by_cases h : sizeLimit < n <;> simp [h]
  have hB : responseFilename url r ≠ none := by
    unfold responseFilename
    cases hy : r.contentDispositionHeader with
    | none => simp
    | some hv => simp [headerToStr_of_visible hv (hcd hv hy)]
  have hC : responseContentType r ≠ none := by
    unfold responseContentType
    cases hy : r.contentTypeHeader with
    | none => simp
    | some hv => simp [headerToStr_of_visible hv (hct hv hy)]
  rw [hres]
  simp only [processResponse]
  split
  · simp
  · split
    · next heq => exact absurd heq hA
    · simp
    · split
      · next heq => exact absurd heq hB
      · split
        · next heq => exact absurd heq hC
        · split <;> simp

/-- Witness for the header-totality theorem: with a plain ASCII
Content-Type value the call returns a result. -/
theorem download_file_header_total_point :
    (download_file 100 [] envNiceCT "http://o.example/f" none
      "ua").result ≠ none :=
  download_file_header_total 100 [] envNiceCT "http://o.example/f" none "ua"
    respNiceCT rfl (fun hv h => Option.noConfusion h)
    (fun hv h => Option.noConfusion h)
    (fun hv h => by cases h; rfl)

/-- C4: once the fetch succeeded and the gates passed, a decoder
failure of any kind becomes the raw-passthrough response carrying the
original downloaded bytes and the declared content type with status
200 — never a hard error status; a declared non-image content type
yields the same passthrough without consulting the decoder. -/
theorem download_image_passthrough (u : String) (host : Option String)
    (uaStr : String) (bytes : List Nat) (ct : Option String)
    (dec : Except DecodeImageError (List Img))
    (hua : strContains (toLowerStr uaStr) "misskey/" = false) :
    ((ct.any fun c => ! startsWithImage c) = false →
      ∀ e, dec = .error e →
      download_image (some u) host (some uaStr) (.ok (bytes, ct)) dec
        = .error (response_raw bytes ct)) ∧
    (∀ c, ct = some c → startsWithImage c = false →
      download_image (some u) host (some uaStr) (.ok (bytes, ct)) dec
        = .error (response_raw bytes ct)) ∧
    (response_raw bytes ct).status = 200 := by
  refine ⟨?_, ?_, rfl⟩
  · intro hmime e hdec
    simp [download_image, hua, hmime, hdec]
  · intro c hct hcs
    subst hct
    simp [download_image, hua, hcs]

/-- Witness for the passthrough theorem: a decoder failure and a
declared text/html type both pass the original bytes through with the
declared type. -/
theorem download_image_passthrough_points :
    download_image (some "http://o.example/f.bin") none (some "TestUA")
      (.ok ([9, 9], some "image/png")) (.error .ImageError)
      = .error (response_raw [9, 9] (some "image/png")) ∧
    download_image (some "http://o.example/f.bin") none (some "TestUA")
      (.ok ([9, 9], some "text/html")) (.ok [])
      = .error (response_raw [9, 9] (some "text/html")) :=
  ⟨(download_image_passthrough "http://o.example/f.bin" none "TestUA"
      [9, 9] (some "image/png") (.error .ImageError) (by decide)).1
      (by decide) .ImageError rfl,
   (download_image_passthrough "http://o.example/f.bin" none "TestUA"
      [9, 9] (some "text/html") (.ok []) (by decide)).2.1
      "text/html" rfl (by decide)⟩

/-- The final timestamp of the add-frame loop is its start plus the
sum of the whole-millisecond delays. -/
theorem webpTimestamps_final (ds : List DelayRat) :
    ∀ t, (webpTimestamps t ds).2 = t + (ds.map delayMs).sum := by
  induction ds with
  | nil => intro t; simp [webpTimestamps]
  | cons d rest ih =>
    intro t
    simp [webpTimestamps, ih (t + delayMs d)]
    omega

/-- The add-frame loop writes one timestamp per frame. -/
theorem webpTimestamps_length (ds : List DelayRat) :
    ∀ t, (webpTimestamps t ds).1.length = ds.length := by
  induction ds with
  | nil => intro t; simp [webpTimestamps]
  | cons d rest ih => intro t; simp [webpTimestamps, ih]

/-- Frame i is written at the loop's start plus the sum of the first i
whole-millisecond delays. -/
theorem webpTimestamps_getElem (ds : List DelayRat) :
    ∀ t i, i < ds.length →
      (webpTimestamps t ds).1[i]?
        = some (t + ((ds.take i).map delayMs).sum) := by
  induction ds with
  | nil => intro t i h; simp at h
  | cons d rest ih =>
    intro t i h
    cases i with
    | zero => simp [webpTimestamps]
    | succ j =>
      have hj : j < rest.length := by simpa using h
      simp [webpTimestamps, ih (t + delayMs d) j hj, List.take_succ_cons]
      omega

/-- C5: encode_webp writes frame i at the cumulative timestamp of the
truncated whole-millisecond delays of the frames before it, starting
at 0, and finalizes with the running timestamp after the last frame's
delay as the total animation duration. -/
theorem encode_webp_timestamps (images : List (Img × DelayRat))
    (hne : images ≠ []) :
    ∃ dims ts fin, encode_webp images = some (dims, ts, fin) ∧
      ts.length = images.length ∧
      (∀ i, i < images.length →
        ts[i]?
          = some ((((images.map Prod.snd).take i).map delayMs).sum)) ∧
      fin = ((images.map Prod.snd).map delayMs).sum := by
  match images, hne with
  | i0 :: rest, _ =>
    refine ⟨(i0.1.width, i0.1.height),
      (webpTimestamps 0 ((i0 :: rest).map Prod.snd)).1,
      (webpTimestamps 0 ((i0 :: rest).map Prod.snd)).2,
      rfl, ?_, ?_, ?_⟩
    · rw [webpTimestamps_length]
      simp
    · intro i hi
      rw [webpTimestamps_getElem _ 0 i (by simpa using hi)]
      simp
    · rw [webpTimestamps_final]
      simp

/-- Witness for the timestamp theorem on three frames with delays
100/1, 50/3 and 7/2 ms: written at 0, 100, 116 with total 119. -/
theorem encode_webp_timestamps_point :
    ([({ width := 2, height := 2 }, (100, 1)),
      ({ width := 2, height := 2 }, (50, 3)),
      ({ width := 2, height := 2 }, (7, 2))] : List (Img × DelayRat))
      ≠ [] ∧
    ∃ dims ts fin,
      encode_webp [({ width := 2, height := 2 }, (100, 1)),
        ({ width := 2, height := 2 }, (50, 3)),
        ({ width := 2, height := 2 }, (7, 2))] = some (dims, ts, fin) ∧
      ts.length = 3 ∧ ts[1]? = some 100 ∧ fin = 119 := by
  refine ⟨by decide, ?_⟩
  obtain ⟨dims, ts, fin, h1, h2, h3, h4⟩ :=
    encode_webp_timestamps [({ width := 2, height := 2 }, (100, 1)),
      ({ width := 2, height := 2 }, (50, 3)),
      ({ width := 2, height := 2 }, (7, 2))] (by decide)
  refine ⟨dims, ts, fin, h1, h2.trans (by decide), ?_, ?_⟩
  · rw [h3 1 (by decide)]
    decide
  · rw [h4]
    decide

/-- C9 counterexample: a syntactically valid GIF may contain zero
image descriptors; the gif codec then reports an empty frame list, the
gif branch maps it one-to-one, and decode_image succeeds with an empty
FrameSet — on which the encoder's first-frame access (`images[0]`)
is undefined, modelled by encode_webp returning none. -/
theorem decode_image_zero_frames :
    decode_image envZeroFrameGif = .ok [] ∧
    encode_webp ([] : List (Img × DelayRat)) = none :=
  ⟨rfl, rfl⟩

/-- C9 amended: a successful decode is empty only when an animated
branch's codec reported an empty frame list; every static branch
yields exactly one frame paired with a zero delay. -/
theorem decode_image_frame_count (e : DecodeEnv) :
    (∀ l, decode_image e = .ok l → l = [] →
      (e.guessed = some .gif ∧ e.gifFrames = .ok []) ∨
      (e.guessed = some .png ∧ e.pngIsApng = .ok true ∧
        e.pngFrames = .ok []) ∨
      (e.guessed = some .webp ∧ e.webpHasAnimation = true ∧
        e.webpFrames = .ok [])) ∧
    (∀ img, e.guessed = some .png → e.pngNewOk = true →
      e.pngIsApng = .ok false → e.pngStatic = .ok img →
      decode_image e
        = .ok [(if e.oriOk then e.applyOri img else img, (0, 1))]) ∧
    (∀ img, e.guessed = some .webp → e.webpNewOk = true →
      e.webpHasAnimation = false → e.webpStatic = .ok img →
      decode_image e
        = .ok [(if e.oriOk then e.applyOri img else img, (0, 1))]) ∧
    (∀ img, e.guessed = some .other → e.otherIntoDecoderOk = true →
      e.otherStatic = .ok img →
      decode_image e
        = .ok [(if e.oriOk then e.applyOri img else img, (0, 1))]) := by
  refine ⟨?_, ?_, ?_, ?_⟩
  · intro l hd hl
    subst hl
    unfold decode_image at hd
    split at hd
    · simp at hd
    · next format hg =>
      split at hd
      · simp at hd
      · next l2 hdf =>
        simp at hd
        subst hd
        cases format with
        | gif =>
          left
          simp only [decode_image_format] at hdf
          split at hdf
          · cases hgf : e.gifFrames with
            | error u => rw [hgf] at hdf; simp [Except.map] at hdf
            | ok fs =>
              rw [hgf] at hdf
              simp [Except.map, frames_to_images] at hdf
              exact ⟨hg, by rw [hdf]⟩
          · simp at hdf
        | png =>
          right; left
          simp only [decode_image_format] at hdf
          split at hdf
          · split at hdf
            · simp at hdf
            · next hap =>
              split at hdf
              · cases hpf : e.pngFrames with
                | error u => rw [hpf] at hdf; simp [Except.map] at hdf
                | ok fs =>
                  rw [hpf] at hdf
                  simp [Except.map, frames_to_images] at hdf
                  exact ⟨hg, hap, by rw [hdf]⟩
              · simp at hdf
            · next hap =>
              split at hdf
              · simp at hdf
              · next img hst => simp [static_image] at hdf
          · simp at hdf
        | webp =>
          right; right
          simp only [decode_image_format] at hdf
          split at hdf
          · split at hdf
            · next han =>
              cases hwf : e.webpFrames with
              | error u => rw [hwf] at hdf; simp [Except.map] at hdf
              | ok fs =>
                rw [hwf] at hdf
                simp [Except.map, frames_to_images] at hdf
                exact ⟨hg, by simpa using han, by rw [hdf]⟩
            · next han =>
              split at hdf
              · simp at hdf
              · next img hst => simp [static_image] at hdf
          · simp at hdf
        | other =>
          simp only [decode_image_format] at hdf
          split at hdf
          · split at hdf
            · simp at hdf
            · next img hst => simp [static_image] at hdf
          · simp at hdf
  · intro img hg hnew hap hst
    simp [decode_image, hg, decode_image_format, hnew, hap, hst,
      static_image]
  · intro img hg hnew han hst
    simp [decode_image, hg, decode_image_format, hnew, han, hst,
      static_image]
  · intro img hg hnew hst
    simp [decode_image, hg, decode_image_format, hnew, hst, static_image]

/-- Witness for the frame-count theorem: the zero-frame GIF oracle
lands in the empty-animation case, and the same oracle pointed at the
static fallback path yields exactly one zero-delay frame. -/
theorem decode_image_frame_count_point :
    ((envZeroFrameGif.guessed = some .gif ∧
        envZeroFrameGif.gifFrames = .ok []) ∨
      (envZeroFrameGif.guessed = some .png ∧
        envZeroFrameGif.pngIsApng = .ok true ∧
        envZeroFrameGif.pngFrames = .ok []) ∨
      (envZeroFrameGif.guessed = some .webp ∧
        envZeroFrameGif.webpHasAnimation = true ∧
        envZeroFrameGif.webpFrames = .ok [])) ∧
    decode_image { envZeroFrameGif with guessed := some .other }
      = .ok [({ width := 1, height := 1 }, (0, 1))] :=
  ⟨(decode_image_frame_count envZeroFrameGif).1 [] rfl rfl,
   (decode_image_frame_count
      { envZeroFrameGif with guessed := some .other }).2.2.2
      { width := 1, height := 1 } rfl rfl rfl⟩

end MediaProxy
